import Mathlib

/-!
# Verification of the news-reports aggregation pipeline

Shallow embedding of the Python sources `news_scraper.py`, `database.py`,
`app.py`, `sample_data.py` (with configuration constants from `config.py`).

Modelling conventions:
* Python strings are Lean `String`s; internal text processing works on
  `List Char` (a `String` is a structure around its character list).
* Python's regex-based text operations (`re.sub(r'<[^>]+>', ...)`,
  `re.split(r'(?<=[。！？.!?])\s+', ...)`, `re.findall(r'\b\w+\b', ...)`)
  are embedded as character-list scanners replicating the leftmost,
  non-overlapping, greedy semantics of those patterns.
* Python's `str.lower` / `\w` / `\s` are modelled on the ASCII range
  (`Char.toLower`, alphanumeric-or-underscore, the six ASCII whitespace
  characters); the claims under verification do not depend on non-ASCII
  case folding.
* I/O boundaries (HTTP fetch, XML parse, the SQLite connection, the cache
  files on disk) are made explicit: fallible externals become parameters
  of sum/option type, and the database becomes an explicit list of rows
  threaded through the operations.
* Python `dict`s keep insertion order; they are embedded as ordered
  association lists (`List (String × α)`) with update-in-place-or-append
  assignment (`dictSet`), matching CPython semantics.
-/

namespace NewsReports

/-! ## Character classes (Python `\s`, `\w`, sentence-terminal punctuation) -/

/-- Python `\s` on the ASCII range: space, tab, newline, carriage return,
vertical tab, form feed. -/
def isPySpace (c : Char) : Bool :=
  c = ' ' || c = '\t' || c = '\n' || c = '\x0d' || c = '\x0b' || c = '\x0c'

/-- The sentence-terminal punctuation class of `news_scraper.py` line 169:
`[。！？.!?]` (Western and full-width CJK). -/
def isTermPunct (c : Char) : Bool :=
  c = '。' || c = '！' || c = '？' || c = '.' || c = '!' || c = '?'

/-- Python `\w` on the ASCII range: letters, digits, underscore. -/
def isWordChar (c : Char) : Bool :=
  c.isAlphanum || c = '_'

/-- Python `str.lower`, modelled on the ASCII range. -/
def lowerCh (c : Char) : Char := c.toLower

/-! ## `clean_html_tags` (news_scraper.py lines 139-148)

`re.sub(r'<[^>]+>', '', text)`: every leftmost match, consisting of `<`,
one or more non-`>` characters, then `>`, is removed.  The scanner below
replicates this: on seeing `<` it buffers subsequent non-`>` characters;
a closing `>` with a non-empty buffer discards the whole span, a closing
`>` with an empty buffer (the text `<>`) or the end of input emits the
buffered characters literally. -/

/-- Tag-removal scanner.  The first argument is `none` outside a tag
candidate, or `some pend` with the (reversed) characters seen since the
last unmatched `<`. -/
def cleanAux : Option (List Char) → List Char → List Char
  | none, [] => []
  | none, c :: rest =>
    if c = '<' then cleanAux (some []) rest
    else c :: cleanAux none rest
  | some pend, [] => '<' :: pend.reverse
  | some pend, c :: rest =>
    if c = '>' then
      if pend.isEmpty then '<' :: '>' :: cleanAux none rest
      else cleanAux none rest
    else cleanAux (some (c :: pend)) rest

/-- Model of `clean_html_tags`: remove basic HTML tags from a string. -/
def cleanHtmlTags (cs : List Char) : List Char := cleanAux none cs

/-! ## Sentence splitting (news_scraper.py line 169)

`re.split(r'(?<=[。！？.!?])\s+', clean_text)`: the text is cut at every
maximal whitespace run immediately preceded by a sentence-terminal
punctuation character; the separators are discarded.  `re.split` keeps
empty pieces (in particular a trailing empty piece when the text ends in
such a run, and the single piece `""` for empty input). -/

/-- Sentence-splitting scanner.  `inWs` is true while consuming the
whitespace run of a match; `prev` holds the previous character (the
lookbehind); `acc` is the current piece, reversed. -/
def splitAux : Bool → Option Char → List Char → List Char → List (List Char)
  | _, _, acc, [] => [acc.reverse]
  | true, _, acc, c :: rest =>
    if isPySpace c then splitAux true none acc rest
    else splitAux false (some c) (c :: acc) rest
  | false, prev, acc, c :: rest =>
    if (match prev with | some p => isTermPunct p | none => false) && isPySpace c then
      acc.reverse :: splitAux true none [] rest
    else splitAux false (some c) (c :: acc) rest

/-- Split a cleaned text into sentences, as `re.split` does. -/
def splitSentences (cs : List Char) : List (List Char) :=
  splitAux false none [] cs

/-! ## Tokenization (news_scraper.py lines 174, 180)

`re.findall(r'\b\w+\b', text)` returns exactly the maximal runs of
word characters. -/

/-- Word-token scanner: maximal runs of `isWordChar` characters.  The
first argument holds the current (reversed) run, if any. -/
def tokensAux : Option (List Char) → List Char → List (List Char)
  | none, [] => []
  | some w, [] => [w.reverse]
  | none, c :: rest =>
    if isWordChar c then tokensAux (some [c]) rest
    else tokensAux none rest
  | some w, c :: rest =>
    if isWordChar c then tokensAux (some (c :: w)) rest
    else w.reverse :: tokensAux none rest

/-- Model of `re.findall(r'\b\w+\b', cs)`. -/
def findWords (cs : List Char) : List (List Char) := tokensAux none cs

/-- Lowercase a character list (Python `str.lower`). -/
def lowerL (cs : List Char) : List Char := cs.map lowerCh

/-- Model of `freq.get(word, 0)` where `freq = Counter(words)`: the number of
occurrences of `w` in `words`. -/
def countOcc (words : List (List Char)) (w : List Char) : Nat :=
  words.countP (fun x => x = w)

/-- Score of one sentence (news_scraper.py lines 180-181): the sum, with
multiplicity, of the global frequencies of the sentence's own tokens. -/
def sentenceScore (words : List (List Char)) (s : List Char) : Nat :=
  ((findWords (lowerL s)).map (countOcc words)).sum

/-! ## Stable sorts (Python `sorted`)

CPython's `sorted` is stable; with `reverse=True` it yields a descending
order in which equal keys keep their original relative order.  Both are
embedded as insertion sorts that place each newly processed element after
every already-placed element it does not strictly precede. -/

/-- One step of the stable descending-by-score sort used at
news_scraper.py line 185 (`sorted(scores, key=lambda x: x[0],
reverse=True)`): `x` is placed after every `y` whose score is ≥ its own. -/
def insertDesc (x : Nat × List Char) : List (Nat × List Char) → List (Nat × List Char)
  | [] => [x]
  | y :: ys => if x.1 ≤ y.1 then y :: insertDesc x ys else x :: y :: ys

/-- Stable descending sort by score. -/
def sortDescScore (l : List (Nat × List Char)) : List (Nat × List Char) :=
  l.foldl (fun acc x => insertDesc x acc) []

/-- One step of a stable ascending sort by a `Nat` key (news_scraper.py
line 187, `sorted(top_sentences, key=...)`). -/
def insertAscBy (key : α → Nat) (x : α) : List α → List α
  | [] => [x]
  | y :: ys => if key y ≤ key x then y :: insertAscBy key x ys else x :: y :: ys

/-- Stable ascending sort by a `Nat` key. -/
def sortAscBy (key : α → Nat) (l : List α) : List α :=
  l.foldl (fun acc x => insertAscBy key x acc) []

/-- Model of `sentences.index(s)` (news_scraper.py line 187): index of the first
occurrence of `s`.  (Python raises on a missing element; in the code the
element is always present, and the model returns the length then.) -/
def firstIdx (l : List (List Char)) (s : List Char) : Nat :=
  match l with
  | [] => 0
  | t :: ts => if t = s then 0 else firstIdx ts s + 1

/-- Model of `' '.join(pieces)`. -/
def joinSpace : List (List Char) → List Char
  | [] => []
  | [s] => s
  | s :: rest => s ++ ' ' :: joinSpace rest

/-- Python `str.strip()`: remove leading and trailing whitespace. -/
def stripWs (cs : List Char) : List Char :=
  ((cs.dropWhile isPySpace).reverse.dropWhile isPySpace).reverse

/-! ## `summarize_text` (news_scraper.py lines 151-188) -/

/-- Model of `summarize_text(text, num_sentences)`: strip tags, split into
sentences; if there are at most `num_sentences` sentences return the
cleaned text unchanged; otherwise score every sentence by summed global
token frequency, keep the `num_sentences` top-scoring ones (stable
descending sort, then truncation), re-sort the kept ones by the index of
the first occurrence of their text in the sentence list, join with single
spaces and strip. -/
def summarizeText (text : String) (numSentences : Nat) : String :=
  let clean := cleanHtmlTags text.data
  let sentences := splitSentences clean
  if sentences.length ≤ numSentences then ⟨clean⟩
  else
    let words := findWords (lowerL clean)
    let scores := sentences.map (fun s => (sentenceScore words s, s))
    let top := (sortDescScore scores).take numSentences
    let sortedTop := sortAscBy (fun p => firstIdx sentences p.2) top
    ⟨stripWs (joinSpace (sortedTop.map (fun p => p.2)))⟩

/-! ## Specification-side summarizer (spec.md §4.1, steps 6-7)

A second rendering of the selection/ordering steps, written from the
spec's words rather than from the code, for refinement comparison:
sentences are tagged with their index, step 6 selects the
`max_sentences` highest-scoring sentences breaking score ties by lower
index, and step 7 re-orders the selected sentences by their own original
position. -/

/-- Insertion step of a sort in which `x` is placed after exactly those
`y` that strictly precede it in the order "higher score first, ties by
lower original index first" (spec.md §4.1 step 6). -/
def insertDescTie (x : Nat × Nat × List Char) :
    List (Nat × Nat × List Char) → List (Nat × Nat × List Char)
  | [] => [x]
  | y :: ys =>
    if x.1 < y.1 ∨ (x.1 = y.1 ∧ y.2.1 < x.2.1) then y :: insertDescTie x ys
    else x :: y :: ys

/-- Sort indexed scored sentences by "higher score first, ties by lower
index first". -/
def sortDescTie (l : List (Nat × Nat × List Char)) : List (Nat × Nat × List Char) :=
  l.foldl (fun acc x => insertDescTie x acc) []

/-- The summarizer as described by spec.md §4.1 (with claim C6's wording
of steps 6-7): same cleaning, splitting, scoring; select the
`numSentences` highest-scoring sentences, ties broken by original
position (lower index wins); re-order the selected sentences by their
original position in the text; join with a single space and trim. -/
def claimSummarySpec (text : String) (numSentences : Nat) : String :=
  let clean := cleanHtmlTags text.data
  let sentences := splitSentences clean
  if sentences.length ≤ numSentences then ⟨clean⟩
  else
    let words := findWords (lowerL clean)
    let scoresI := sentences.enum.map (fun p => (sentenceScore words p.2, p.1, p.2))
    let top := (sortDescTie scoresI).take numSentences
    let sortedTop := sortAscBy (fun p => p.2.1) top
    ⟨stripWs (joinSpace (sortedTop.map (fun p => p.2.2)))⟩

/-! ## Feed fetcher: `fetch_feed` (news_scraper.py lines 96-136)

The network and the XML parser are external; their combined outcome for
one URL is a `FeedResponse`.  `transportError` covers any
`requests.RequestException` (connection errors, timeouts, and the
non-success statuses turned into exceptions by `raise_for_status`);
`parseError` is `xml.etree.ElementTree.ParseError` on the body;
`parsed root` is a successfully parsed document. -/

/-- A parsed XML element: tag, optional text content, child elements. -/
inductive XmlNode where
  | mk (tag : String) (text : Option String) (children : List XmlNode)

/-- The tag of a node. -/
def XmlNode.tag : XmlNode → String
  | .mk t _ _ => t

/-- The text of a node (`Element.text`, `None` when absent). -/
def XmlNode.text : XmlNode → Option String
  | .mk _ s _ => s

/-- The children of a node. -/
def XmlNode.children : XmlNode → List XmlNode
  | .mk _ _ cs => cs

/-- Model of `Element.find(tag)`: the first direct child with the given tag. -/
def XmlNode.findChild (n : XmlNode) (t : String) : Option XmlNode :=
  n.children.find? (fun c => c.tag = t)

/-- Model of `Element.findall(tag)`: all direct children with the given tag. -/
def XmlNode.findAllChildren (n : XmlNode) (t : String) : List XmlNode :=
  n.children.filter (fun c => c.tag = t)

/-- Outcome of the HTTP request plus XML parse for one feed URL. -/
inductive FeedResponse where
  | transportError
  | parseError
  | parsed (root : XmlNode)

/-- A raw feed item (`{'title', 'link', 'description'}`). -/
structure FeedItem where
  title : String
  link : String
  description : String
deriving DecidableEq

/-- Python `str.strip()` on `String`. -/
def pyStrip (s : String) : String := ⟨stripWs s.data⟩

/-- Field extraction for one `<item>` node (news_scraper.py lines
130-132): `el.text.strip() if el is not None and el.text else None` —
the element must exist and its text must be present and non-empty
(Python truthiness) before stripping. -/
def itemField (it : XmlNode) (tag : String) : Option String :=
  match it.findChild tag with
  | none => none
  | some el =>
    match el.text with
    | none => none
    | some s => if s = "" then none else some (pyStrip s)

/-- Model of `fetch_feed`: empty list on transport/HTTP failure, on a malformed
XML payload, and on a document without a `channel` child; otherwise the
well-formed items of `<channel>` — an item missing any of
title/link/description, or whose extracted field is empty (news
_scraper.py line 133, `if not title or not link or not desc`), is
silently skipped. -/
def fetchFeed (resp : FeedResponse) : List FeedItem :=
  match resp with
  | .transportError => []
  | .parseError => []
  | .parsed root =>
    match root.findChild "channel" with
    | none => []
    | some channel =>
      (channel.findAllChildren "item").filterMap (fun it =>
        match itemField it "title", itemField it "link", itemField it "description" with
        | some t, some l, some d =>
          if t = "" ∨ l = "" ∨ d = "" then none else some ⟨t, l, d⟩
        | _, _, _ => none)

/-! ## Article Store: `database.py`

The SQLite table `news_articles` is embedded as an explicit list of
rows; the `UNIQUE` constraint on `hash_id` together with
`INSERT OR IGNORE` means an insert appends a row exactly when no
existing row carries the same `hash_id`.  `fetch_date` (an ISO-format
timestamp string whose lexicographic order coincides with chronological
order) is embedded as an integer timestamp.  The columns `id`,
`created_at`, `updated_at` (engine-managed), `tags` and
`sentiment_score` are not needed by any claim and are omitted. -/

/-- A persisted row of `news_articles`. -/
structure Row where
  hashId : String
  region : String
  country : String
  source : String
  flagEmoji : String
  title : String
  link : String
  description : String
  summary : String
  content : String
  pubDate : String
  fetchDate : Int
  language : String
  category : String
  wordCount : Nat
deriving DecidableEq

/-- An article dictionary passed to the insert operations.  `title`,
`link` and `source` are accessed with `article[...]` (required); the
remaining fields use `article.get(key, default)`, embedded as structure
fields with those defaults. -/
structure ArticleIn where
  title : String
  link : String
  source : String
  region : String := ""
  country : String := ""
  flag : String := "📰"
  description : String := ""
  summary : String := ""
  content : String := ""
  pubDate : String := ""
  language : String := "en"
  category : String := "general"
deriving DecidableEq

/-- Model of `generate_article_hash(title, link, source)` (database.py lines
103-106) computes `md5(f"{title}|{link}|{source}")`.  MD5 is a fixed
deterministic function of its input bytes, so the model identifies the
hash with the `'|'`-joined input itself: two triples receive the same
`hash_id` exactly when their joined encodings coincide.  (Collisions of
MD5 on distinct inputs are not modelled; no claim relies on them.) -/
def generateArticleHash (title link source : String) : String :=
  title ++ "|" ++ link ++ "|" ++ source

/-- Python `str.split()` with no argument: maximal runs of
non-whitespace characters. -/
def pySplitWs (cs : List Char) : List (List Char) :=
  (cs.splitOnP isPySpace).filter (fun w => ¬ w.isEmpty)

/-- Build the row inserted for one article (database.py lines 175-198);
`now` is the shared `datetime.now().isoformat()` of the batch. -/
def mkRow (now : Int) (a : ArticleIn) : Row :=
  { hashId := generateArticleHash a.title a.link a.source
    region := a.region
    country := a.country
    source := a.source
    flagEmoji := a.flag
    title := a.title
    link := a.link
    description := a.description
    summary := a.summary
    content := a.content
    pubDate := a.pubDate
    fetchDate := now
    language := a.language
    category := a.category
    wordCount := (pySplitWs a.summary.data).length }

/-- Does the store already hold a row with this `hash_id`? -/
def hashPresent (st : List Row) (h : String) : Bool :=
  st.any (fun r => r.hashId = h)

/-- One `INSERT OR IGNORE` (the loop body of `insert_articles_batch`):
a duplicate `hash_id` leaves the store unchanged with `rowcount = 0`,
otherwise the new row is appended with `rowcount = 1`. -/
def insertArticleRow (now : Int) (st : List Row) (a : ArticleIn) : List Row × Nat :=
  if hashPresent st (generateArticleHash a.title a.link a.source) then (st, 0)
  else (st ++ [mkRow now a], 1)

/-- Model of `insert_articles_batch(articles)` (database.py lines 158-214):
insert every article in order, counting the rows actually inserted.
Returns the final store and the reported `inserted_count`.  (The
`sqlite3.Error` handlers never fire on a duplicate: `INSERT OR IGNORE`
resolves the uniqueness conflict without raising, so the model is a
total function.) -/
def insertArticlesBatch (now : Int) (st : List Row) (articles : List ArticleIn) :
    List Row × Nat :=
  articles.foldl
    (fun acc a =>
      let (st', n) := insertArticleRow now acc.1 a
      (st', acc.2 + n))
    (st, 0)

/-- Number of rows carrying a given `hash_id`. -/
def countHash (st : List Row) (h : String) : Nat :=
  st.countP (fun r => r.hashId = h)

/-- Model of `cleanup_old_articles(days_old)` (database.py lines 392-414): delete
every row with `fetch_date < now - days_old` (dates in days), return the
kept rows and the deleted count. -/
def cleanupOldArticles (now : Int) (daysOld : Nat) (st : List Row) : List Row × Nat :=
  let cutoff : Int := now - daysOld
  (st.filter (fun r => ¬ r.fetchDate < cutoff),
   st.countP (fun r => r.fetchDate < cutoff))

/-- Outcome of an API route: a JSON payload or a 4xx client error. -/
inductive ApiOutcome (α : Type) where
  | ok (payload : α)
  | clientError (message : String)
deriving DecidableEq

/-- The `/api/cleanup/<int:days>` route (app.py lines 68-81): days
outside `[1, 365]` are rejected with a 400 and the store is untouched;
otherwise `cleanup_old_news` (which delegates to
`cleanup_old_articles`) runs and the deleted count is returned.  The
route's `<int:days>` converter only admits non-negative integers, so
`days : Nat`. -/
def apiCleanupOldNews (now : Int) (days : Nat) (st : List Row) :
    ApiOutcome Nat × List Row :=
  if days < 1 ∨ days > 365 then
    (.clientError "Days must be between 1 and 365", st)
  else
    let (st', n) := cleanupOldArticles now days st
    (.ok n, st')

/-! ## Ordered dictionaries (Python `dict`)

News items flowing through the aggregation pipeline are Python `dict`s
with string keys and string values; the set of keys present differs
between the pipeline's tiers, which is exactly what claim C4 is about.
They are embedded as ordered association lists.  `dictSet` is
`d[k] = v`: the value is updated in place when the key is present
(keeping its position, as CPython does) and appended otherwise. -/

/-- A news-item dictionary. -/
abbrev Item := List (String × String)

/-- Assignment `d[k] = v` on an ordered association list. -/
def dictSet (m : List (String × α)) (k : String) (v : α) : List (String × α) :=
  match m with
  | [] => [(k, v)]
  | (k', v') :: rest =>
    if k' = k then (k, v) :: rest else (k', v') :: dictSet rest k v

/-- Lookup `d.get(k)`: the value at `k`, if present. -/
def dictGet (m : List (String × α)) (k : String) : Option α :=
  (m.find? (fun p => p.1 = k)).map (fun p => p.2)

/-- Membership `k in d`. -/
def hasKey (m : List (String × α)) (k : String) : Bool :=
  m.any (fun p => p.1 = k)

/-! ## Configuration constants (config.py lines 217-224) -/

/-- Constant `MAX_ITEMS_PER_SOURCE = 5`. -/
def MAX_ITEMS_PER_SOURCE : Nat := 5

/-! ## Sample Data Provider (sample_data.py)

`get_sample_data_by_region()` with no argument returns the literal
`SAMPLE_NEWS_DATA` mapping. -/

/-- One sample item. -/
def sampleItem (region flag source title link summary : String) : Item :=
  [("region", region), ("flag", flag), ("source", source),
   ("title", title), ("link", link), ("summary", summary)]

/-- The literal `SAMPLE_NEWS_DATA` (sample_data.py lines 8-115). -/
def sampleNewsData : List (String × List Item) :=
  [("北美",
    [sampleItem "北美" "🇺🇸" "CNN" "美国经济数据显示通胀率继续下降"
       "https://example.com/news1"
       "最新发布的经济数据显示，美国通胀率连续第三个月下降，这为美联储的货币政策提供了更多灵活性。分析师认为这是经济软着陆的积极信号。",
     sampleItem "北美" "🇺🇸" "NPR" "科技巨头宣布新一轮人工智能投资计划"
       "https://example.com/news2"
       "多家科技公司宣布将在未来三年内投资数百亿美元用于人工智能研发，重点关注生成式AI和机器学习技术的突破性应用。",
     sampleItem "北美" "🇺🇸" "AP News" "气候变化对北美农业产生显著影响"
       "https://example.com/news3"
       "研究报告指出，极端天气事件频发对北美地区农业生产造成重大冲击，农民们正在适应新的种植策略以应对气候挑战。"]),
   ("欧洲",
    [sampleItem "欧洲" "🇬🇧" "BBC" "欧盟通过新的数字服务法案"
       "https://example.com/news4"
       "欧洲议会正式通过了新的数字服务法案，旨在加强对大型科技平台的监管，保护用户隐私和促进公平竞争。",
     sampleItem "欧洲" "🇬🇧" "The Guardian" "英国宣布新的可再生能源发展计划"
       "https://example.com/news5"
       "英国政府公布了雄心勃勃的可再生能源发展路线图，计划到2030年实现碳中和目标，重点发展海上风电和太阳能项目。",
     sampleItem "欧洲" "🇩🇪" "DW" "德国汽车工业加速电动化转型"
       "https://example.com/news6"
       "德国主要汽车制造商宣布加速电动汽车生产线建设，预计到2025年电动车产量将占总产量的50%以上。",
     sampleItem "欧洲" "🇫🇷" "France 24" "法国推出新的教育改革方案"
       "https://example.com/news7"
       "法国教育部宣布新的教育改革计划，重点加强STEM教育和数字技能培养，以提升学生在全球化时代的竞争力。"]),
   ("亚太",
    [sampleItem "亚太" "🇯🇵" "NHK World" "日本推出新一代高速铁路技术"
       "https://example.com/news8"
       "日本铁道公司成功测试了时速400公里的新一代新干线列车，该技术将进一步巩固日本在高速铁路领域的领先地位。",
     sampleItem "亚太" "🇸🇬" "CNA" "新加坡成为全球金融科技创新中心"
       "https://example.com/news9"
       "最新报告显示，新加坡凭借其完善的监管框架和创新环境，已成为亚太地区最重要的金融科技创新中心之一。"]),
   ("中东",
    [sampleItem "中东" "🇶🇦" "Al Jazeera" "中东地区可再生能源投资创新高"
       "https://example.com/news10"
       "阿联酋和沙特阿拉伯等海湾国家大幅增加可再生能源投资，太阳能项目规模不断扩大，显示出能源转型的坚定决心。"]),
   ("国际组织",
    [sampleItem "国际组织" "🌍" "Reuters" "联合国发布全球气候行动进展报告"
       "https://example.com/news11"
       "联合国最新报告显示，各国在减排目标实现方面取得积极进展，但仍需加大努力以实现《巴黎协定》的目标。",
     sampleItem "国际组织" "🇺🇳" "UN News" "世界卫生组织更新全球卫生指导方针"
       "https://example.com/news12"
       "世卫组织发布了新的全球卫生指导方针，重点关注疾病预防、健康促进和卫生系统韧性建设。"])]

/-! ## `fetch_news_by_region_from_db` (news_scraper.py lines 234-266)

The database read `get_all_articles_by_region(hours_back=24)` is an I/O
boundary; its result — articles grouped by region, most recent first —
is the parameter `grouped`.  Each region keeps at most
`MAX_ITEMS_PER_SOURCE` articles, converted to the API format; regions
whose converted list is empty are omitted (`if formatted_articles:`). -/

/-- Convert one stored article to the API format (news_scraper.py lines
248-256).  `article['summary'] or article['description'][:200] + '...'`
uses the summary when it is non-empty (truthy) and a 200-character
description prefix plus an ellipsis otherwise. -/
def formatDbArticle (a : Row) : Item :=
  [("region", a.region), ("country", a.country), ("flag", a.flagEmoji),
   ("source", a.source), ("title", a.title), ("link", a.link),
   ("summary", if a.summary ≠ "" then a.summary
               else ⟨a.description.data.take 200⟩ ++ "...")]

/-- Model of `fetch_news_by_region_from_db`. -/
def fetchNewsByRegionFromDb (grouped : List (String × List Row)) :
    List (String × List Item) :=
  grouped.filterMap (fun p =>
    let formatted := (p.2.take MAX_ITEMS_PER_SOURCE).map formatDbArticle
    if formatted.isEmpty then none else some (p.1, formatted))

/-! ## Aggregation entry points (news_scraper.py lines 191-373)

Per source, the cache state and the network are external.  A
`SourceOutcome` records what the pass observes for one source:
`cacheHit items` is a valid cache file whose `load_from_cache` yields
`items`; `fetched feed` is an invalid/missing cache followed by
`fetch_feed` returning `feed` (possibly empty — a failed fetch).  The
observable effects retained by the model are the returned news
structures and the list of `save_to_cache` writes; the
`update_source_stats` audit calls and the database insert of the region
pass do not affect any claim's observables and are not returned. -/

/-- What one aggregation pass observes for one source. -/
inductive SourceOutcome where
  | cacheHit (items : List Item)
  | fetched (feed : List FeedItem)
deriving DecidableEq

/-- A configured source of `FEED_SOURCES_BY_REGION` together with its
simulated outcome.  (The feed URL only selects the network response and
is absorbed into `outcome`.) -/
structure SourceSpec where
  name : String
  flag : String
  outcome : SourceOutcome
deriving DecidableEq

/-- A region-grouped configuration, as in `FEED_SOURCES_BY_REGION`. -/
abbrev RegionConfig := List (String × List SourceSpec)

/-- The count `total_sources` (news_scraper.py line 278). -/
def totalSources (config : RegionConfig) : Nat :=
  (config.map (fun p => p.2.length)).sum

/-- The items contributed to a region by one source, the success
increment, and the cache writes (news_scraper.py lines 283-351).
A cache hit stamps each cached item with the current region and flag and
counts as a success.  A fetch takes at most `MAX_ITEMS_PER_SOURCE`
items; when at least one item arrived, each is summarized into a
processed item, a source-scoped four-key view is written to the cache
and the source counts as a success; when nothing arrived the cache is
untouched and nothing is contributed. -/
def sourceContribution (region : String) (s : SourceSpec) :
    List Item × Nat × List (String × List Item) :=
  match s.outcome with
  | .cacheHit items =>
    (items.map (fun it => dictSet (dictSet it "region" region) "flag" s.flag), 1, [])
  | .fetched feed =>
    let items := feed.take MAX_ITEMS_PER_SOURCE
    if items.isEmpty then ([], 0, [])
    else
      let processed := items.map (fun fi =>
        [("region", region), ("flag", s.flag), ("source", s.name),
         ("title", fi.title), ("link", fi.link),
         ("summary", summarizeText fi.description 2)])
      let cacheView := items.map (fun fi =>
        [("source", s.name), ("title", fi.title), ("link", fi.link),
         ("summary", summarizeText fi.description 2)])
      (processed, 1, [(s.name, cacheView)])

/-- The inner source loop of one region: concatenated items, success
count, cache writes, in source order. -/
def sourcesPass (region : String) : List SourceSpec →
    List Item × Nat × List (String × List Item)
  | [] => ([], 0, [])
  | s :: rest =>
    let (items, succ, writes) := sourceContribution region s
    let (items', succ', writes') := sourcesPass region rest
    (items ++ items', succ + succ', writes ++ writes')

/-- Accumulated state of the region loop. -/
structure PassResult where
  news : List (String × List Item)
  successes : Nat
  writes : List (String × List Item)
deriving DecidableEq

/-- The outer region loop (news_scraper.py lines 280-353):
`news_by_region[region] = region_news` for each configured region in
order. -/
def regionPassAux (acc : PassResult) : RegionConfig → PassResult
  | [] => acc
  | (region, sources) :: rest =>
    let (items, succ, writes) := sourcesPass region sources
    regionPassAux
      ⟨dictSet acc.news region items, acc.successes + succ, acc.writes ++ writes⟩
      rest

/-- The region loop from the empty state. -/
def regionPass (config : RegionConfig) : PassResult :=
  regionPassAux ⟨[], 0, []⟩ config

/-- The test `not news_by_region.get(region) or len(news_by_region[region]) < 2`
(news_scraper.py lines 362 and 370): the region is absent, or its list
is empty (falsy), or it has fewer than 2 items — equivalently, absent
or shorter than 2. -/
def needsFill (m : List (String × List Item)) (r : String) : Bool :=
  match dictGet m r with
  | none => true
  | some l => l.length < 2

/-- The shared shape of the store-fallback loop (lines 361-363) and the
sample-fallback loop (lines 369-371): for each region of the fallback
source in order, replace the region's entry when it is absent, empty or
below 2 items. -/
def applyFallbackList (m : List (String × List Item)) :
    List (String × List Item) → List (String × List Item)
  | [] => m
  | (r, items) :: rest =>
    applyFallbackList (if needsFill m r then dictSet m r items else m) rest

/-- The total `sum(len(articles) for articles in news_by_region.values())`. -/
def totalItems (m : List (String × List Item)) : Nat :=
  (m.map (fun p => p.2.length)).sum

/-- Model of `fetch_news_by_region` (news_scraper.py lines 269-373).  `config`
fixes each source's observed outcome; `dbData` is the value
`fetch_news_by_region_from_db()` returns when the fallback queries the
store (the reads happen after this pass's inserts, so the caller
supplies the store's grouped view at that point).  The Python float
comparison `successful_fetches < total_sources * 0.3` is embedded as
`10 * successes < 3 * total`: for every count below `10^14` the rounded
double `total * 0.3` is closer to `0.3 * total` than to any other value
an integer comparison could distinguish, so the two tests agree.
Returns the region-grouped news; the cache writes of the pass are
`(regionPass config).writes`. -/
def fetchNewsByRegionM (config : RegionConfig)
    (dbData : List (String × List Item)) : List (String × List Item) :=
  let p := regionPass config
  if 10 * p.successes < 3 * totalSources config then
    let merged := applyFallbackList p.news dbData
    if merged = [] ∨ totalItems merged < 10 then
      applyFallbackList merged sampleNewsData
    else merged
  else p.news

/-- A flat-configuration source for `fetch_all_news` (an entry of
`FEED_SOURCES` plus its simulated outcome). -/
structure FlatSourceSpec where
  name : String
  outcome : SourceOutcome
deriving DecidableEq

/-- Model of `fetch_all_news` (news_scraper.py lines 191-231): per source, a
valid cache contributes its items unchanged with no write; otherwise the
fetch (capped to `MAX_ITEMS_PER_SOURCE`) is processed into four-key
items which are appended to the aggregate, and `save_to_cache` is called
unconditionally with the processed batch — including the empty batch of
a failed fetch.  Returns the aggregated items and the cache writes. -/
def fetchAllNews : List FlatSourceSpec → List Item × List (String × List Item)
  | [] => ([], [])
  | s :: rest =>
    let (agg, writes) := fetchAllNews rest
    match s.outcome with
    | .cacheHit items => (items ++ agg, writes)
    | .fetched feed =>
      let processed := (feed.take MAX_ITEMS_PER_SOURCE).map (fun fi =>
        [("source", s.name), ("title", fi.title), ("link", fi.link),
         ("summary", summarizeText fi.description 2)])
      (processed ++ agg, (s.name, processed) :: writes)

/-- The six keys common to every tier's items (claim C4, as amended:
the seventh key `country` is only present on store-fallback items). -/
def hasStdKeys (it : Item) : Prop :=
  hasKey it "region" = true ∧ hasKey it "flag" = true ∧
  hasKey it "source" = true ∧ hasKey it "title" = true ∧
  hasKey it "link" = true ∧ hasKey it "summary" = true

/-- Does a source's simulated cache content consist of items carrying
the four source-scoped keys that `save_to_cache` writes in the normal
flow (news_scraper.py lines 340-345)?  Always true for a cache miss. -/
def cacheWellFormed (s : SourceSpec) : Bool :=
  match s.outcome with
  | .cacheHit items => items.all (fun it =>
      hasKey it "source" && hasKey it "title" && hasKey it "link" &&
      hasKey it "summary")
  | .fetched _ => true

/-! ## Concrete instances used by witnesses and counterexamples -/

/-- Colliding article of claim C10, first form. -/
def c10ArticleA : ArticleIn := { title := "a|b", link := "c", source := "s" }

/-- Colliding article of claim C10, second form. -/
def c10ArticleB : ArticleIn := { title := "a", link := "b|c", source := "s" }

/-- A concrete article for the idempotence witness. -/
def c3Article : ArticleIn :=
  { title := "Euro rises", link := "https://x/1", source := "BBC", region := "英国" }

/-- A small concrete store for the cleanup witness: one stale row
(fetch day 50) and one fresh row (fetch day 90). -/
def c9Rows : List Row :=
  [mkRow 50 { title := "old", link := "l1", source := "A" },
   mkRow 90 { title := "new", link := "l2", source := "B" }]

/-- A concrete parsed RSS document: a channel with one well-formed item
and one item lacking a description. -/
def c7Root : XmlNode :=
  .mk "rss" none
    [.mk "channel" none
      [.mk "item" none
        [.mk "title" (some " T ") [], .mk "link" (some "L") [],
         .mk "description" (some "D") []],
       .mk "item" none
        [.mk "title" (some "T2") [], .mk "link" (some "L2") []]]]

/-- A one-region, one-source configuration whose source fetches one
item; the pass succeeds, so no fallback runs. -/
def c4Config : RegionConfig :=
  [("美国", [⟨"CNN", "🇺🇸", .fetched [⟨"T", "L", "D"⟩]⟩])]

/-- The processed item produced by `c4Config`. -/
def c4Item : Item :=
  [("region", "美国"), ("flag", "🇺🇸"), ("source", "CNN"),
   ("title", "T"), ("link", "L"), ("summary", "D")]

/-- A configuration for the C4 witness: one cache hit whose cached item
carries the four source-scoped keys, and one failed fetch. -/
def c4WitnessConfig : RegionConfig :=
  [("英国",
    [⟨"BBC", "🇬🇧", .cacheHit
       [[("source", "BBC"), ("title", "T"), ("link", "L"), ("summary", "S")]]⟩,
     ⟨"Sky News", "🇬🇧", .fetched []⟩])]

/-- A five-source configuration with a 40% success rate (two cache
hits, three failed fetches), for the C1 witness. -/
def c1Config : RegionConfig :=
  [("美国",
    [⟨"CNN", "🇺🇸", .cacheHit [[("source", "CNN"), ("title", "T1"),
        ("link", "L1"), ("summary", "S1")]]⟩,
     ⟨"NPR", "🇺🇸", .fetched []⟩,
     ⟨"AP News", "🇺🇸", .fetched []⟩]),
   ("英国",
    [⟨"BBC", "🇬🇧", .cacheHit [[("source", "BBC"), ("title", "T2"),
        ("link", "L2"), ("summary", "S2")]]⟩,
     ⟨"Sky News", "🇬🇧", .fetched []⟩])]

/-- A store view for the C1 witness. -/
def c1DbData : List (String × List Item) :=
  [("美国", [[("region", "美国"), ("country", "美国"), ("flag", "🇺🇸"),
      ("source", "CNN"), ("title", "DbT"), ("link", "DbL"), ("summary", "DbS")]])]

/-! ## Helper lemmas on the dictionary operations -/

theorem dictGet_dictSet_self (m : List (String × α)) (k : String) (v : α) :
    dictGet (dictSet m k v) k = some v := by
  induction m with
  | nil => simp [dictSet, dictGet, List.find?]
  | cons p rest ih =>
    by_cases h : p.1 = k
    · simp [dictSet, h, dictGet, List.find?]
    · simp only [dictSet, if_neg h]
      simpa [dictGet, List.find?, h] using ih

theorem dictGet_dictSet_ne (m : List (String × α)) (k k' : String) (v : α)
    (h : k' ≠ k) : dictGet (dictSet m k v) k' = dictGet m k' := by
  have h2 : ¬ (k = k') := fun hh => h hh.symm
  induction m with
  | nil => simp [dictSet, dictGet, List.find?, h2]
  | cons p rest ih =>
    by_cases hp : p.1 = k
    · have hk : ¬ (p.1 = k') := by rw [hp]; exact h2
      simp [dictSet, if_pos hp, dictGet, List.find?, h2, hk]
    · simp only [dictSet, if_neg hp]
      by_cases hp' : p.1 = k'
      · simp [dictGet, List.find?, hp']
      · simpa [dictGet, List.find?, hp'] using ih

theorem dictGet_eq_none_of_not_mem (m : List (String × α)) (k : String)
    (h : k ∉ m.map (fun p => p.1)) : dictGet m k = none := by
  induction m with
  | nil => rfl
  | cons p rest ih =>
    simp only [List.map_cons, List.mem_cons] at h
    push_neg at h
    have : ¬ p.1 = k := fun hh => h.1 hh.symm
    simpa [dictGet, List.find?, this] using ih h.2

theorem mem_dictSet_val (m : List (String × α)) (k : String) (v : α) :
    ∀ p ∈ dictSet m k v, p.2 = v ∨ ∃ q ∈ m, q.2 = p.2 := by
  induction m with
  | nil => intro p hp; simp [dictSet] at hp; simp [hp]
  | cons q rest ih =>
    intro p hp
    by_cases h : q.1 = k
    · simp only [dictSet, if_pos h, List.mem_cons] at hp
      rcases hp with hp | hp
      · simp [hp]
      · exact Or.inr ⟨p, List.mem_cons_of_mem _ hp, rfl⟩
    · simp only [dictSet, if_neg h, List.mem_cons] at hp
      rcases hp with hp | hp
      · exact Or.inr ⟨q, List.mem_cons_self _ _, hp ▸ rfl⟩
      · rcases ih p hp with h' | ⟨r, hr, hr'⟩
        · exact Or.inl h'
        · exact Or.inr ⟨r, List.mem_cons_of_mem _ hr, hr'⟩

/-! ## Claim C8: determinism of the summarizer

`summarize_text` is embedded as a pure function: its result depends on
nothing but the two arguments, mirroring the Python code, whose only
intermediate state (the local `Counter`, the two `sorted` calls) is
deterministic and local to the call. -/

/-- C8: summarize_text is deterministic — two calls on identical
`(text, num_sentences)` input yield identical output; the embedding
exhibits the output as a function of exactly those two arguments. -/
theorem summarizeText_deterministic (t₁ t₂ : String) (n₁ n₂ : Nat)
    (ht : t₁ = t₂) (hn : n₁ = n₂) :
    summarizeText t₁ n₁ = summarizeText t₂ n₂ := by
  subst ht; subst hn; rfl

/-- Witness for C8 at a concrete input. -/
theorem summarizeText_deterministic_witness :
    summarizeText "A cat sat. A dog ran. A cat played with a dog." 1 =
      summarizeText "A cat sat. A dog ran. A cat played with a dog." 1 :=
  summarizeText_deterministic _ _ 1 1 rfl rfl

/-! ## Claim C5: short inputs are returned verbatim -/

/-- C5: when the tag-stripped input splits into at most `numSentences`
sentences, `summarize_text` returns the tag-stripped input verbatim;
and the empty input yields the empty output for every `numSentences`. -/
theorem summarizeText_short_verbatim (t : String) (n : Nat) :
    ((splitSentences (cleanHtmlTags t.data)).length ≤ n →
      summarizeText t n = ⟨cleanHtmlTags t.data⟩) ∧
    summarizeText "" n = "" := by
  constructor
  · intro h
    unfold summarizeText
    simp only [if_pos h]
  · match n with
    | 0 => rfl
    | n + 1 =>
      unfold summarizeText
      have h1 : (splitSentences (cleanHtmlTags "".data)).length = 1 := rfl
      have h : (splitSentences (cleanHtmlTags "".data)).length ≤ n + 1 := by omega
      simp only [if_pos h]
      rfl

/-- Witness for C5 at a concrete input with one sentence and the
default `num_sentences = 2`. -/
theorem summarizeText_short_verbatim_witness :
    ((splitSentences (cleanHtmlTags "Hello <b>world</b>.".data)).length ≤ 2) ∧
    summarizeText "Hello <b>world</b>." 2 = ⟨cleanHtmlTags "Hello <b>world</b>.".data⟩ ∧
    summarizeText "" 2 = "" :=
  ⟨by decide, (summarizeText_short_verbatim "Hello <b>world</b>." 2).1 (by decide),
   (summarizeText_short_verbatim "Hello <b>world</b>." 2).2⟩

/-! ## Claim C9: cleanup bounds and exact deletion -/

/-- C9: the cleanup route rejects `days = 0` and `days = 366` as client
errors without touching the store, and for any in-range `days` deletes
exactly the rows whose `fetch_date` is older than `now - days` (strictly
before the cutoff), returning the deleted count. -/
theorem cleanup_bounds_exact (now : Int) (st : List Row) (days : Nat)
    (h₁ : 1 ≤ days) (h₂ : days ≤ 365) :
    apiCleanupOldNews now 0 st = (.clientError "Days must be between 1 and 365", st) ∧
    apiCleanupOldNews now 366 st = (.clientError "Days must be between 1 and 365", st) ∧
    apiCleanupOldNews now days st =
      (.ok (st.countP (fun r => r.fetchDate < now - days)),
       st.filter (fun r => ¬ r.fetchDate < now - days)) := by
  refine ⟨by simp [apiCleanupOldNews], by simp [apiCleanupOldNews], ?_⟩
  have hc : ¬ (days < 1 ∨ days > 365) := by omega
  rw [apiCleanupOldNews, if_neg hc]
  simp [cleanupOldArticles]

/-- Witness for C9: `days = 30` on a store with one row 50 days old and
one 10 days old (at `now = 100`) deletes exactly the stale row. -/
theorem cleanup_bounds_exact_witness :
    (1 ≤ 30 ∧ 30 ≤ 365) ∧
    apiCleanupOldNews 100 0 c9Rows = (.clientError "Days must be between 1 and 365", c9Rows) ∧
    apiCleanupOldNews 100 366 c9Rows = (.clientError "Days must be between 1 and 365", c9Rows) ∧
    apiCleanupOldNews 100 30 c9Rows =
      (.ok (c9Rows.countP (fun r => r.fetchDate < 100 - 30)),
       c9Rows.filter (fun r => ¬ r.fetchDate < 100 - 30)) :=
  ⟨⟨by decide, by decide⟩, cleanup_bounds_exact 100 c9Rows 30 (by decide) (by decide)⟩

/-! ## Claim C10: the hash separator is ambiguous -/

/-- C10: the `'|'`-joined encodings of the distinct triples
`("a|b", "c", "s")` and `("a", "b|c", "s")` are identical, so both
articles receive the same `hash_id`, and batch-inserting the two
distinct articles stores only the first: the second is silently ignored
by the uniqueness-based insert. -/
theorem article_hash_ambiguous :
    generateArticleHash "a|b" "c" "s" = generateArticleHash "a" "b|c" "s" ∧
    c10ArticleA ≠ c10ArticleB ∧
    insertArticlesBatch 0 [] [c10ArticleA, c10ArticleB] = ([mkRow 0 c10ArticleA], 1) := by
  refine ⟨rfl, by decide, ?_⟩
  decide

/-! ## Claim C3: idempotent insertion -/

theorem countP_eq_zero_of_hashPresent_false (st : List Row) (h : String)
    (hp : hashPresent st h = false) : countHash st h = 0 := by
  unfold hashPresent at hp
  unfold countHash
  rw [List.countP_eq_zero]
  intro r hr
  rw [List.any_eq_false] at hp
  simpa using hp r hr

/-- C3: inserting the same `(title, link, source)` triple twice yields
exactly one stored row.  If the store does not yet hold the triple's
hash, a batch insert of the article reports 1 and stores one row with
that hash; a second batch insert of the same article (at any later
timestamp) reports 0, leaves the store unchanged, and the row count for
that hash stays 1.  The model is a total function: `INSERT OR IGNORE`
resolves the duplicate without an error. -/
theorem insert_batch_idempotent (st : List Row) (a : ArticleIn) (now₁ now₂ : Int)
    (hp : hashPresent st (generateArticleHash a.title a.link a.source) = false) :
    (insertArticlesBatch now₁ st [a]).2 = 1 ∧
    countHash (insertArticlesBatch now₁ st [a]).1
      (generateArticleHash a.title a.link a.source) = 1 ∧
    insertArticlesBatch now₂ (insertArticlesBatch now₁ st [a]).1 [a] =
      ((insertArticlesBatch now₁ st [a]).1, 0) := by
  have h0 := countP_eq_zero_of_hashPresent_false st _ hp
  have hfirst : insertArticlesBatch now₁ st [a] = (st ++ [mkRow now₁ a], 1) := by
    simp [insertArticlesBatch, insertArticleRow, hp]
  refine ⟨by rw [hfirst], ?_, ?_⟩
  · rw [hfirst]
    unfold countHash at h0 ⊢
    simp [List.countP_append, h0, mkRow, List.countP_cons]
  · rw [hfirst]
    have hpres : hashPresent (st ++ [mkRow now₁ a])
        (generateArticleHash a.title a.link a.source) = true := by
      simp [hashPresent, List.any_append, mkRow, List.any_cons]
    simp [insertArticlesBatch, insertArticleRow, hpres]

/-- Witness for C3 on the empty store. -/
theorem insert_batch_idempotent_witness :
    hashPresent [] (generateArticleHash c3Article.title c3Article.link c3Article.source) = false ∧
    (insertArticlesBatch 10 [] [c3Article]).2 = 1 ∧
    countHash (insertArticlesBatch 10 [] [c3Article]).1
      (generateArticleHash c3Article.title c3Article.link c3Article.source) = 1 ∧
    insertArticlesBatch 20 (insertArticlesBatch 10 [] [c3Article]).1 [c3Article] =
      ((insertArticlesBatch 10 [] [c3Article]).1, 0) :=
  ⟨by decide, insert_batch_idempotent [] c3Article 10 20 (by decide)⟩

/-! ## Claim C7: the feed fetcher never raises and returns only
well-formed items -/

/-- C7: every failure of `fetch_feed` degrades to the empty sequence —
transport failures and non-success statuses (both raised as
`requests.RequestException` and caught), malformed XML, and a document
without a `channel` container; and every returned item carries a
non-empty title, link and description, items missing any of the three
being silently skipped. -/
theorem fetchFeed_total_wellformed :
    fetchFeed .transportError = [] ∧
    fetchFeed .parseError = [] ∧
    (∀ root : XmlNode, root.findChild "channel" = none →
      fetchFeed (.parsed root) = []) ∧
    (∀ resp : FeedResponse, ∀ it ∈ fetchFeed resp,
      it.title ≠ "" ∧ it.link ≠ "" ∧ it.description ≠ "") := by
  refine ⟨rfl, rfl, ?_, ?_⟩
  · intro root h
    simp only [fetchFeed, h]
  · intro resp it hit
    match resp with
    | .transportError => simp [fetchFeed] at hit
    | .parseError => simp [fetchFeed] at hit
    | .parsed root =>
      simp only [fetchFeed] at hit
      match hch : root.findChild "channel" with
      | none => rw [hch] at hit; simp at hit
      | some channel =>
        rw [hch] at hit
        simp only [List.mem_filterMap] at hit
        obtain ⟨node, -, hnode⟩ := hit
        split at hnode
        · split at hnode
          · exact absurd hnode (by simp)
          · rename_i hempty
            push_neg at hempty
            cases hnode
            exact ⟨hempty.1, hempty.2.1, hempty.2.2⟩
        · exact absurd hnode (by simp)

/-- Witness for C7: the well-formed item of `c7Root` (with its title
stripped of surrounding whitespace) is returned, and its three fields
are non-empty; the malformed second item is skipped. -/
theorem fetchFeed_total_wellformed_witness :
    (⟨"T", "L", "D"⟩ : FeedItem) ∈ fetchFeed (.parsed c7Root) ∧
    fetchFeed (.parsed c7Root) = [⟨"T", "L", "D"⟩] ∧
    (("T" : String) ≠ "" ∧ ("L" : String) ≠ "" ∧ ("D" : String) ≠ "") :=
  ⟨by decide, by decide,
   fetchFeed_total_wellformed.2.2.2 (.parsed c7Root) ⟨"T", "L", "D"⟩ (by decide)⟩

/-! ## Claim C2: which fetches write the cache

The claim asserts for both entry points that a fetch returning no items
leaves the source's cache file untouched.  That is what
`fetch_news_by_region` does (its `save_to_cache` call sits inside
`if items:`), but `fetch_all_news` calls `save_to_cache(cache_file,
processed_items)` unconditionally after every fetch, so a fetch that
returned nothing overwrites the cache with an empty list. -/

/-- Counterexample to C2 as stated: in `fetch_all_news`, a source whose
fetch returns no items still gets a cache write — with the empty batch. -/
theorem flat_failed_fetch_writes_cache :
    (fetchAllNews [⟨"BBC", .fetched []⟩]).2 = [("BBC", [])] ∧
    (fetchAllNews [⟨"BBC", .fetched []⟩]).2 ≠ [] := by
  refine ⟨rfl, ?_⟩
  intro h
  simp [fetchAllNews] at h

theorem sourceContribution_writes (region : String) (s : SourceSpec) :
    (sourceContribution region s).2.2 =
      match s.outcome with
      | .cacheHit _ => []
      | .fetched feed =>
        if (feed.take MAX_ITEMS_PER_SOURCE).isEmpty then []
        else [(s.name, (feed.take MAX_ITEMS_PER_SOURCE).map (fun fi =>
          [("source", s.name), ("title", fi.title), ("link", fi.link),
           ("summary", summarizeText fi.description 2)]))] := by
  match s with
  | ⟨name, flag, .cacheHit items⟩ => rfl
  | ⟨name, flag, .fetched feed⟩ =>
    simp only [sourceContribution]
    split <;> rfl

theorem sourcesPass_writes (region : String) (sources : List SourceSpec) :
    (sourcesPass region sources).2.2 = sources.filterMap (fun s =>
      match s.outcome with
      | .cacheHit _ => none
      | .fetched feed =>
        if (feed.take MAX_ITEMS_PER_SOURCE).isEmpty then none
        else some (s.name, (feed.take MAX_ITEMS_PER_SOURCE).map (fun fi =>
          [("source", s.name), ("title", fi.title), ("link", fi.link),
           ("summary", summarizeText fi.description 2)]))) := by
  induction sources with
  | nil => rfl
  | cons s rest ih =>
    simp only [sourcesPass, List.filterMap_cons]
    have hw := sourceContribution_writes region s
    match hs : s.outcome with
    | .cacheHit items =>
      rw [hs] at hw
      simp [hw, ih]
    | .fetched feed =>
      rw [hs] at hw
      by_cases he : (feed.take MAX_ITEMS_PER_SOURCE).isEmpty
      · simp only [if_pos he] at hw ⊢
        simp [hw, ih]
      · simp only [if_neg he] at hw ⊢
        simp [hw, ih]

theorem regionPassAux_writes (config : RegionConfig) :
    ∀ acc : PassResult, (regionPassAux acc config).writes =
      acc.writes ++ (config.map (fun p => (sourcesPass p.1 p.2).2.2)).flatten := by
  induction config with
  | nil => intro acc; simp [regionPassAux]
  | cons p rest ih =>
    intro acc
    simp only [regionPassAux, List.map_cons, List.flatten]
    rw [ih]
    simp [List.append_assoc]

/-- C2 as amended: in `fetch_news_by_region` a cache entry is written
only by a successful fetch — the pass's cache writes are exactly one
non-empty source-scoped batch per cache-missed source whose capped
fetch returned at least one item, and a source whose fetch returned
nothing gets no write; in `fetch_all_news`, by contrast, every
cache-missed source is written back unconditionally, one write per
fetch, including the empty batch of a failed fetch. -/
theorem cache_write_policy (flat : List FlatSourceSpec) (config : RegionConfig) :
    (regionPass config).writes = (config.map (fun p => p.2.filterMap (fun s =>
      match s.outcome with
      | .cacheHit _ => none
      | .fetched feed =>
        if (feed.take MAX_ITEMS_PER_SOURCE).isEmpty then none
        else some (s.name, (feed.take MAX_ITEMS_PER_SOURCE).map (fun fi =>
          [("source", s.name), ("title", fi.title), ("link", fi.link),
           ("summary", summarizeText fi.description 2)]))))).flatten ∧
    (∀ w ∈ (regionPass config).writes, w.2 ≠ []) ∧
    (fetchAllNews flat).2 = flat.filterMap (fun s =>
      match s.outcome with
      | .cacheHit _ => none
      | .fetched feed => some (s.name, (feed.take MAX_ITEMS_PER_SOURCE).map (fun fi =>
          [("source", s.name), ("title", fi.title), ("link", fi.link),
           ("summary", summarizeText fi.description 2)]))) := by
  have hregion : (regionPass config).writes =
      (config.map (fun p => (sourcesPass p.1 p.2).2.2)).flatten := by
    unfold regionPass
    rw [regionPassAux_writes]
    rfl
  refine ⟨?_, ?_, ?_⟩
  · rw [hregion]
    exact congrArg _ (List.map_congr_left (fun p _ => sourcesPass_writes p.1 p.2))
  · intro w hw
    rw [hregion] at hw
    simp only [List.mem_flatten, List.mem_map] at hw
    obtain ⟨l, ⟨p, -, hp⟩, hwl⟩ := hw
    rw [← hp, sourcesPass_writes] at hwl
    simp only [List.mem_filterMap] at hwl
    obtain ⟨s, -, hs⟩ := hwl
    obtain ⟨name, flag, outcome⟩ := s
    cases outcome with
    | cacheHit items => exact absurd hs (by simp)
    | fetched feed =>
      have hs' : (if (feed.take MAX_ITEMS_PER_SOURCE).isEmpty = true then none
          else some (name, (feed.take MAX_ITEMS_PER_SOURCE).map (fun fi =>
            [("source", name), ("title", fi.title), ("link", fi.link),
             ("summary", summarizeText fi.description 2)]))) = some w := hs
      by_cases he : (feed.take MAX_ITEMS_PER_SOURCE).isEmpty = true
      · rw [if_pos he] at hs'
        exact absurd hs' (by simp)
      · rw [if_neg he] at hs'
        injection hs' with hs'
        rw [← hs']
        match hfeed : feed.take MAX_ITEMS_PER_SOURCE with
        | [] => rw [hfeed] at he; exact absurd rfl he
        | fi :: rest => simp [hfeed]
  · induction flat with
    | nil => rfl
    | cons s rest ih =>
      simp only [fetchAllNews, List.filterMap_cons]
      match hs : s.outcome with
      | .cacheHit items => simpa [fetchAllNews, hs] using ih
      | .fetched feed => simpa [fetchAllNews, hs] using ih

/-- Witness for C2's amended statement: a two-source flat configuration
(one failed fetch, one successful) and a one-region configuration with
the same outcomes. -/
theorem cache_write_policy_witness :
    (regionPass [("英国", [⟨"BBC", "🇬🇧", .fetched []⟩, ⟨"Sky News", "🇬🇧",
        .fetched [⟨"T", "L", "D"⟩]⟩])]).writes =
      [("Sky News", [[("source", "Sky News"), ("title", "T"), ("link", "L"),
        ("summary", "D")]])] ∧
    ("Sky News", [[("source", "Sky News"), ("title", "T"), ("link", "L"),
        ("summary", "D")]]) ∈ (regionPass [("英国", [⟨"BBC", "🇬🇧", .fetched []⟩,
        ⟨"Sky News", "🇬🇧", .fetched [⟨"T", "L", "D"⟩]⟩])]).writes ∧
    ([[("source", "Sky News"), ("title", "T"), ("link", "L"),
        ("summary", "D")]] : List Item) ≠ [] ∧
    (fetchAllNews [⟨"BBC", .fetched []⟩, ⟨"Sky News", .fetched [⟨"T", "L", "D"⟩]⟩]).2 =
      [("BBC", []), ("Sky News", [[("source", "Sky News"), ("title", "T"),
        ("link", "L"), ("summary", "D")]])] := by
  refine ⟨by decide, by decide, ?_, by decide⟩
  exact (cache_write_policy [⟨"BBC", .fetched []⟩, ⟨"Sky News",
      .fetched [⟨"T", "L", "D"⟩]⟩] [("英国", [⟨"BBC", "🇬🇧", .fetched []⟩, ⟨"Sky News",
      "🇬🇧", .fetched [⟨"T", "L", "D"⟩]⟩])]).2.1
    ("Sky News", [[("source", "Sky News"), ("title", "T"), ("link", "L"),
      ("summary", "D")]]) (by decide)

/-! ## Claim C1: the fallback ladder of `fetch_news_by_region` -/

theorem applyFallbackList_get_not_mem (db : List (String × List Item)) :
    ∀ (m : List (String × List Item)) (r : String),
      r ∉ db.map (fun p => p.1) →
      dictGet (applyFallbackList m db) r = dictGet m r := by
  induction db with
  | nil => intro m r _; rfl
  | cons p rest ih =>
    intro m r hr
    simp only [List.map_cons, List.mem_cons] at hr
    push_neg at hr
    simp only [applyFallbackList]
    rw [ih _ r hr.2]
    by_cases hf : needsFill m p.1
    · rw [if_pos hf]
      exact dictGet_dictSet_ne m p.1 r p.2 hr.1
    · rw [if_neg hf]

/-- Characterization of the shared fallback loop under distinct fallback
keys: a region's entry after the loop is the fallback's version exactly
when the fallback has that region and the region was absent, empty or
below two items beforehand; otherwise it is unchanged. -/
theorem applyFallbackList_get (db : List (String × List Item))
    (hdb : (db.map (fun p => p.1)).Nodup) :
    ∀ (m : List (String × List Item)) (r : String),
      dictGet (applyFallbackList m db) r =
        match dictGet db r with
        | some v => if needsFill m r then some v else dictGet m r
        | none => dictGet m r := by
  induction db with
  | nil => intro m r; rfl
  | cons p rest ih =>
    intro m r
    simp only [List.map_cons, List.nodup_cons] at hdb
    by_cases hr : p.1 = r
    · subst hr
      simp only [applyFallbackList]
      have hnm : p.1 ∉ rest.map (fun q => q.1) := hdb.1
      rw [applyFallbackList_get_not_mem rest _ p.1 hnm]
      have hdg : dictGet (p :: rest) p.1 = some p.2 := by
        simp [dictGet, List.find?]
      simp only [hdg]
      by_cases hf : needsFill m p.1
      · rw [if_pos hf, if_pos hf, dictGet_dictSet_self]
      · rw [if_neg hf, if_neg hf]
    · simp only [applyFallbackList]
      have hdg : dictGet (p :: rest) r = dictGet rest r := by
        simp [dictGet, List.find?, hr]
      rw [hdg]
      by_cases hf : needsFill m p.1
      · rw [if_pos hf]
        have hget : dictGet (dictSet m p.1 p.2) r = dictGet m r :=
          dictGet_dictSet_ne _ _ _ _ (fun hh => hr hh.symm)
        have hneed : needsFill (dictSet m p.1 p.2) r = needsFill m r := by
          unfold needsFill
          rw [hget]
        rw [ih hdb.2 _ r, hneed, hget]
      · rw [if_neg hf]
        exact ih hdb.2 _ r

/-- C1: the degradation ladder of `fetch_news_by_region`.  With a
success rate at or above the 30% threshold the pass returns exactly the
in-memory aggregation — no region is substituted from the store or the
samples.  Below the threshold, (a) the store tier replaces a region's
entry exactly when the store view has that region and the in-memory
entry is absent, empty or below two items, leaving every other region
untouched, and (b) the sample tier is engaged if and only if the total
item count after the store substitution is still below ten (an empty
region map has total zero, so the code's extra `not news_by_region`
disjunct adds nothing). -/
theorem region_fallback_ladder (config : RegionConfig)
    (dbData : List (String × List Item))
    (hdb : (dbData.map (fun p => p.1)).Nodup) :
    (3 * totalSources config ≤ 10 * (regionPass config).successes →
      fetchNewsByRegionM config dbData = (regionPass config).news) ∧
    (10 * (regionPass config).successes < 3 * totalSources config →
      (∀ r : String,
        dictGet (applyFallbackList (regionPass config).news dbData) r =
          match dictGet dbData r with
          | some v => if needsFill (regionPass config).news r then some v
                      else dictGet (regionPass config).news r
          | none => dictGet (regionPass config).news r) ∧
      fetchNewsByRegionM config dbData =
        (if totalItems (applyFallbackList (regionPass config).news dbData) < 10 then
          applyFallbackList (applyFallbackList (regionPass config).news dbData)
            sampleNewsData
        else applyFallbackList (regionPass config).news dbData)) := by
  constructor
  · intro h
    have hg : ¬ (10 * (regionPass config).successes < 3 * totalSources config) := by
      omega
    unfold fetchNewsByRegionM
    rw [if_neg hg]
  · intro h
    refine ⟨applyFallbackList_get dbData hdb _, ?_⟩
    unfold fetchNewsByRegionM
    rw [if_pos h]
    by_cases ht :
        totalItems (applyFallbackList (regionPass config).news dbData) < 10
    · rw [if_pos ht, if_pos (Or.inr ht)]
    · rw [if_neg ht]
      have hne : applyFallbackList (regionPass config).news dbData ≠ [] := by
        intro hm
        rw [hm] at ht
        exact absurd (by simp [totalItems]) ht
      rw [if_neg (by tauto)]

/-- Witness for C1: `c1Config` has five sources of which two succeed
(40% — above the threshold), so the result is exactly the in-memory
aggregation, with no store or sample substitution. -/
theorem region_fallback_ladder_witness :
    3 * totalSources c1Config ≤ 10 * (regionPass c1Config).successes ∧
    fetchNewsByRegionM c1Config c1DbData = (regionPass c1Config).news :=
  ⟨by decide,
   (region_fallback_ladder c1Config c1DbData (by decide)).1 (by decide)⟩

/-! ## Claim C4: the keys present on result items -/

theorem hasKey_dictSet_self (k : String) (v : α) :
    ∀ m : List (String × α), hasKey (dictSet m k v) k = true := by
  intro m
  induction m with
  | nil => simp [dictSet, hasKey]
  | cons p rest ih =>
    by_cases h : p.1 = k
    · simp [dictSet, h, hasKey]
    · unfold dictSet
      rw [if_neg h]
      unfold hasKey at ih ⊢
      simp only [List.any_cons, Bool.or_eq_true] at ih ⊢
      exact Or.inr ih

theorem hasKey_dictSet_mono (k k' : String) (v : α) :
    ∀ m : List (String × α), hasKey m k' = true →
      hasKey (dictSet m k v) k' = true := by
  intro m
  induction m with
  | nil => intro h; simp [hasKey] at h
  | cons p rest ih =>
    intro h
    unfold hasKey at h
    simp only [List.any_cons, Bool.or_eq_true] at h
    by_cases hp : p.1 = k
    · unfold dictSet
      rw [if_pos hp]
      unfold hasKey
      simp only [List.any_cons, Bool.or_eq_true]
      rcases h with h | h
      · exact Or.inl (by rw [← hp]; exact h)
      · exact Or.inr h
    · unfold dictSet
      rw [if_neg hp]
      unfold hasKey
      simp only [List.any_cons, Bool.or_eq_true]
      rcases h with h | h
      · exact Or.inl h
      · exact Or.inr (ih h)

theorem cacheWellFormed_spec (s : SourceSpec) (h : cacheWellFormed s = true)
    (items : List Item) (heq : s.outcome = .cacheHit items) :
    ∀ it ∈ items, hasKey it "source" = true ∧ hasKey it "title" = true ∧
      hasKey it "link" = true ∧ hasKey it "summary" = true := by
  unfold cacheWellFormed at h
  rw [heq] at h
  have h2 : items.all (fun it =>
      hasKey it "source" && hasKey it "title" && hasKey it "link" &&
      hasKey it "summary") = true := h
  rw [List.all_eq_true] at h2
  intro it hit
  have h3 := h2 it hit
  simp only [Bool.and_eq_true] at h3
  exact ⟨h3.1.1.1, h3.1.1.2, h3.1.2, h3.2⟩

theorem sourceContribution_keys (region : String) (s : SourceSpec)
    (hwf : cacheWellFormed s = true) :
    ∀ it ∈ (sourceContribution region s).1, hasStdKeys it := by
  obtain ⟨name, flag, outcome⟩ := s
  cases outcome with
  | cacheHit items =>
    intro it hit
    simp only [sourceContribution, List.mem_map] at hit
    obtain ⟨it0, hit0, rfl⟩ := hit
    have h4 := cacheWellFormed_spec _ hwf items rfl it0 hit0
    refine ⟨?_, ?_, ?_, ?_, ?_, ?_⟩
    · exact hasKey_dictSet_mono _ _ _ _ (hasKey_dictSet_self _ _ _)
    · exact hasKey_dictSet_self _ _ _
    · exact hasKey_dictSet_mono _ _ _ _ (hasKey_dictSet_mono _ _ _ _ h4.1)
    · exact hasKey_dictSet_mono _ _ _ _ (hasKey_dictSet_mono _ _ _ _ h4.2.1)
    · exact hasKey_dictSet_mono _ _ _ _ (hasKey_dictSet_mono _ _ _ _ h4.2.2.1)
    · exact hasKey_dictSet_mono _ _ _ _ (hasKey_dictSet_mono _ _ _ _ h4.2.2.2)
  | fetched feed =>
    intro it hit
    simp only [sourceContribution] at hit
    by_cases he : (feed.take MAX_ITEMS_PER_SOURCE).isEmpty = true
    · rw [if_pos he] at hit
      simp at hit
    · rw [if_neg he] at hit
      simp only [List.mem_map] at hit
      obtain ⟨fi, -, rfl⟩ := hit
      exact ⟨by simp [hasKey], by simp [hasKey], by simp [hasKey],
        by simp [hasKey], by simp [hasKey], by simp [hasKey]⟩

theorem sourcesPass_items_mem (region : String) :
    ∀ (sources : List SourceSpec), ∀ it ∈ (sourcesPass region sources).1,
      ∃ s ∈ sources, it ∈ (sourceContribution region s).1 := by
  intro sources
  induction sources with
  | nil => intro it hit; simp [sourcesPass] at hit
  | cons s rest ih =>
    intro it hit
    simp only [sourcesPass, List.mem_append] at hit
    rcases hit with hit | hit
    · exact ⟨s, List.mem_cons_self _ _, hit⟩
    · obtain ⟨s2, hs2, h2⟩ := ih it hit
      exact ⟨s2, List.mem_cons_of_mem _ hs2, h2⟩

theorem regionPassAux_news_val (config : RegionConfig) :
    ∀ (acc : PassResult), ∀ p ∈ (regionPassAux acc config).news,
      (∃ q ∈ acc.news, q.2 = p.2) ∨
      (∃ rs ∈ config, (sourcesPass rs.1 rs.2).1 = p.2) := by
  induction config with
  | nil => intro acc p hp; exact Or.inl ⟨p, hp, rfl⟩
  | cons c rest ih =>
    intro acc p hp
    obtain ⟨region, sources⟩ := c
    simp only [regionPassAux] at hp
    rcases ih _ p hp with hm | hr
    · obtain ⟨q, hq, hq2⟩ := hm
      rcases mem_dictSet_val _ _ _ q hq with h | ⟨r2, hr2, hr22⟩
      · refine Or.inr ⟨(region, sources), List.mem_cons_self _ _, ?_⟩
        rw [← hq2, h]
      · exact Or.inl ⟨r2, hr2, by rw [hr22, hq2]⟩
    · obtain ⟨rs, hrs, h2⟩ := hr
      exact Or.inr ⟨rs, List.mem_cons_of_mem _ hrs, h2⟩

theorem applyFallbackList_val_mem (db : List (String × List Item)) :
    ∀ (m : List (String × List Item)), ∀ p ∈ applyFallbackList m db,
      (∃ q ∈ m, q.2 = p.2) ∨ (∃ q ∈ db, q.2 = p.2) := by
  induction db with
  | nil => intro m p hp; exact Or.inl ⟨p, hp, rfl⟩
  | cons d rest ih =>
    intro m p hp
    simp only [applyFallbackList] at hp
    rcases ih _ p hp with hm | hdbv
    · by_cases hf : needsFill m d.1 = true
      · rw [if_pos hf] at hm
        obtain ⟨q, hq, hq2⟩ := hm
        rcases mem_dictSet_val m d.1 d.2 q hq with h | ⟨r2, hr2, hr22⟩
        · exact Or.inr ⟨d, List.mem_cons_self _ _, by rw [← hq2, h]⟩
        · exact Or.inl ⟨r2, hr2, by rw [hr22, hq2]⟩
      · rw [if_neg hf] at hm
        exact Or.inl hm
    · obtain ⟨q, hq, hq2⟩ := hdbv
      exact Or.inr ⟨q, List.mem_cons_of_mem _ hq, hq2⟩

theorem fetchNewsByRegionFromDb_keys (grouped : List (String × List Row)) :
    ∀ p ∈ fetchNewsByRegionFromDb grouped, ∀ it ∈ p.2, hasStdKeys it := by
  intro p hp it hit
  simp only [fetchNewsByRegionFromDb, List.mem_filterMap] at hp
  obtain ⟨q, -, hq⟩ := hp
  by_cases he : ((q.2.take MAX_ITEMS_PER_SOURCE).map formatDbArticle).isEmpty = true
  · rw [if_pos he] at hq
    exact absurd hq (by simp)
  · rw [if_neg he] at hq
    injection hq with hq
    rw [← hq] at hit
    simp only [List.mem_map] at hit
    obtain ⟨a, -, rfl⟩ := hit
    exact ⟨by simp [formatDbArticle, hasKey], by simp [formatDbArticle, hasKey],
      by simp [formatDbArticle, hasKey], by simp [formatDbArticle, hasKey],
      by simp [formatDbArticle, hasKey], by simp [formatDbArticle, hasKey]⟩

instance (it : Item) : Decidable (hasStdKeys it) := by
  unfold hasStdKeys
  infer_instance

theorem sample_items_std_keys :
    ∀ p ∈ sampleNewsData, ∀ it ∈ p.2, hasStdKeys it := by decide

/-- Counterexample to C4 as stated: with a single successfully fetched
source (no fallback engaged), the produced item has no `country` key at
all — the claim's requirement that every item contain `country` fails. -/
theorem region_item_missing_country :
    fetchNewsByRegionM c4Config [] = [("美国", [c4Item])] ∧
    c4Item ∈ [c4Item] ∧
    hasKey c4Item "country" = false := by
  refine ⟨by decide, by decide, by decide⟩

/-- C4 as amended: every item in the mapping returned by
`fetch_news_by_region` — from a cache hit (provided the cached entries
carry the four source-scoped keys the normal flow writes), a fresh
fetch, the store fallback or the sample fallback — contains the six
keys `region`, `flag`, `source`, `title`, `link`, `summary`; the
`country` key is additionally present only on store-fallback items. -/
theorem region_items_std_keys (config : RegionConfig)
    (grouped : List (String × List Row))
    (hc : ∀ p ∈ config, ∀ s ∈ p.2, cacheWellFormed s = true) :
    ∀ p ∈ fetchNewsByRegionM config (fetchNewsByRegionFromDb grouped),
      ∀ it ∈ p.2, hasStdKeys it := by
  have hbase : ∀ q ∈ (regionPass config).news, ∀ it ∈ q.2, hasStdKeys it := by
    intro q hq it2 hit2
    rcases regionPassAux_news_val config ⟨[], 0, []⟩ q hq with ⟨r2, hr2, -⟩ | ⟨rs, hrs, h2⟩
    · simp at hr2
    · rw [← h2] at hit2
      obtain ⟨s, hs, hsc⟩ := sourcesPass_items_mem rs.1 rs.2 it2 hit2
      exact sourceContribution_keys rs.1 s (hc rs hrs s hs) it2 hsc
  intro p hp it hit
  simp only [fetchNewsByRegionM] at hp
  by_cases hg : 10 * (regionPass config).successes < 3 * totalSources config
  · rw [if_pos hg] at hp
    by_cases hm : applyFallbackList (regionPass config).news
        (fetchNewsByRegionFromDb grouped) = [] ∨
        totalItems (applyFallbackList (regionPass config).news
          (fetchNewsByRegionFromDb grouped)) < 10
    · rw [if_pos hm] at hp
      rcases applyFallbackList_val_mem sampleNewsData _ p hp with h1 | h2
      · obtain ⟨q, hq, hq2⟩ := h1
        rcases applyFallbackList_val_mem (fetchNewsByRegionFromDb grouped) _ q hq with
          hb | hdbq
        · obtain ⟨q2, hq2b, hq22⟩ := hb
          exact hbase q2 hq2b it (by rw [hq22, hq2]; exact hit)
        · obtain ⟨q2, hq2b, hq22⟩ := hdbq
          exact fetchNewsByRegionFromDb_keys grouped q2 hq2b it
            (by rw [hq22, hq2]; exact hit)
      · obtain ⟨q, hq, hq2⟩ := h2
        exact sample_items_std_keys q hq it (by rw [hq2]; exact hit)
    · rw [if_neg hm] at hp
      rcases applyFallbackList_val_mem (fetchNewsByRegionFromDb grouped) _ p hp with
        hb | hdbq
      · obtain ⟨q2, hq2b, hq22⟩ := hb
        exact hbase q2 hq2b it (by rw [hq22]; exact hit)
      · obtain ⟨q2, hq2b, hq22⟩ := hdbq
        exact fetchNewsByRegionFromDb_keys grouped q2 hq2b it (by rw [hq22]; exact hit)
  · rw [if_neg hg] at hp
    exact hbase p hp it hit

/-- Witness for C4's amended statement: the stamped cache-hit item of
`c4WitnessConfig` carries all six keys. -/
theorem region_items_std_keys_witness :
    (("英国", [[("source", "BBC"), ("title", "T"), ("link", "L"),
       ("summary", "S"), ("region", "英国"), ("flag", "🇬🇧")]]) ∈
      fetchNewsByRegionM c4WitnessConfig (fetchNewsByRegionFromDb [])) ∧
    hasStdKeys [("source", "BBC"), ("title", "T"), ("link", "L"),
       ("summary", "S"), ("region", "英国"), ("flag", "🇬🇧")] :=
  ⟨by decide,
   region_items_std_keys c4WitnessConfig [] (by decide)
     ("英国", [[("source", "BBC"), ("title", "T"), ("link", "L"),
       ("summary", "S"), ("region", "英国"), ("flag", "🇬🇧")]])
     (by decide)
     [("source", "BBC"), ("title", "T"), ("link", "L"),
       ("summary", "S"), ("region", "英国"), ("flag", "🇬🇧")]
     (by decide)⟩

/-! ## Claim C6: selection and ordering of the summarizer

The implementation re-orders the selected `(score, sentence)` pairs by
`sentences.index(sentence)` — the index of the *first occurrence of the
sentence's text* — while the claim says they are re-ordered by their
original position.  The two coincide exactly when no selected sentence
text is duplicated; with duplicates the implementation groups equal
texts together, which the counterexample below exhibits.  The amended
statement is proved as a refinement between `summarizeText` (embedded
from the code) and `claimSummarySpec` (written from the spec's steps,
with an explicit score-then-lower-index tie-break) for inputs whose
sentence list has no duplicate texts. -/

theorem mem_insertDescTie (x y : Nat × Nat × List Char) :
    ∀ l, y ∈ insertDescTie x l → y = x ∨ y ∈ l := by
  intro l
  induction l with
  | nil =>
    intro h
    unfold insertDescTie at h
    exact Or.inl (List.mem_singleton.mp h)
  | cons z zs ih =>
    intro h
    unfold insertDescTie at h
    split at h
    · rcases List.mem_cons.mp h with h | h
      · exact Or.inr (h ▸ List.mem_cons_self z zs)
      · rcases ih h with h2 | h2
        · exact Or.inl h2
        · exact Or.inr (List.mem_cons_of_mem z h2)
    · rcases List.mem_cons.mp h with h | h
      · exact Or.inl h
      · exact Or.inr h

theorem mem_foldl_insertDescTie (l : List (Nat × Nat × List Char)) :
    ∀ acc y, y ∈ l.foldl (fun a x => insertDescTie x a) acc →
      y ∈ acc ∨ y ∈ l := by
  induction l with
  | nil => intro acc y h; exact Or.inl h
  | cons x xs ih =>
    intro acc y h
    simp only [List.foldl_cons] at h
    rcases ih _ y h with h2 | h2
    · rcases mem_insertDescTie x y acc h2 with h3 | h3
      · exact Or.inr (h3 ▸ List.mem_cons_self x xs)
      · exact Or.inl h3
    · exact Or.inr (List.mem_cons_of_mem x h2)

theorem mem_sortDescTie (l : List (Nat × Nat × List Char))
    (y : Nat × Nat × List Char) (h : y ∈ sortDescTie l) : y ∈ l := by
  rcases mem_foldl_insertDescTie l [] y h with h2 | h2
  · exact absurd h2 (by simp)
  · exact h2

theorem insertDesc_proj (x : Nat × Nat × List Char) :
    ∀ acc : List (Nat × Nat × List Char),
      (∀ y ∈ acc, y.2.1 < x.2.1) →
      insertDesc (x.1, x.2.2) (acc.map (fun z => (z.1, z.2.2))) =
        (insertDescTie x acc).map (fun z => (z.1, z.2.2)) := by
  intro acc
  induction acc with
  | nil => intro _; rfl
  | cons y ys ih =>
    intro h
    have hy : y.2.1 < x.2.1 := h y (List.mem_cons_self _ _)
    simp only [List.map_cons, insertDesc, insertDescTie]
    by_cases hc : x.1 ≤ y.1
    · have hc2 : x.1 < y.1 ∨ x.1 = y.1 ∧ y.2.1 < x.2.1 := by
        rcases Nat.lt_or_ge x.1 y.1 with h2 | h2
        · exact Or.inl h2
        · exact Or.inr ⟨Nat.le_antisymm hc h2, hy⟩
      rw [if_pos hc, if_pos hc2, List.map_cons,
        ih (fun z hz => h z (List.mem_cons_of_mem _ hz))]
    · have hc2 : ¬ (x.1 < y.1 ∨ x.1 = y.1 ∧ y.2.1 < x.2.1) := by
        intro h2
        rcases h2 with h2 | ⟨h2, -⟩
        · exact hc (Nat.le_of_lt h2)
        · exact hc (Nat.le_of_eq h2)
      rw [if_neg hc, if_neg hc2]
      simp

theorem foldl_insertDesc_proj :
    ∀ (l acc : List (Nat × Nat × List Char)),
      List.Pairwise (fun a b => a.2.1 < b.2.1) l →
      (∀ y ∈ acc, ∀ x ∈ l, y.2.1 < x.2.1) →
      (l.map (fun z => (z.1, z.2.2))).foldl (fun a x => insertDesc x a)
          (acc.map (fun z => (z.1, z.2.2))) =
        (l.foldl (fun a x => insertDescTie x a) acc).map (fun z => (z.1, z.2.2)) := by
  intro l
  induction l with
  | nil => intro acc _ _; rfl
  | cons x xs ih =>
    intro acc hp hacc
    simp only [List.map_cons, List.foldl_cons]
    rw [insertDesc_proj x acc (fun y hy => hacc y hy x (List.mem_cons_self _ _))]
    apply ih
    · exact (List.pairwise_cons.mp hp).2
    · intro y hy x2 hx2
      rcases mem_insertDescTie x y acc hy with h | h
      · exact h ▸ (List.pairwise_cons.mp hp).1 x2 hx2
      · exact hacc y h x2 (List.mem_cons_of_mem _ hx2)

theorem sortDescScore_proj (l : List (Nat × Nat × List Char))
    (hp : List.Pairwise (fun a b => a.2.1 < b.2.1) l) :
    sortDescScore (l.map (fun z => (z.1, z.2.2))) =
      (sortDescTie l).map (fun z => (z.1, z.2.2)) := by
  unfold sortDescScore sortDescTie
  have h := foldl_insertDesc_proj l [] hp (by simp)
  simpa using h

theorem mem_insertAscBy (key : α → Nat) (x y : α) :
    ∀ l, y ∈ insertAscBy key x l → y = x ∨ y ∈ l := by
  intro l
  induction l with
  | nil =>
    intro h
    unfold insertAscBy at h
    exact Or.inl (List.mem_singleton.mp h)
  | cons z zs ih =>
    intro h
    unfold insertAscBy at h
    split at h
    · rcases List.mem_cons.mp h with h | h
      · exact Or.inr (h ▸ List.mem_cons_self z zs)
      · rcases ih h with h2 | h2
        · exact Or.inl h2
        · exact Or.inr (List.mem_cons_of_mem z h2)
    · rcases List.mem_cons.mp h with h | h
      · exact Or.inl h
      · exact Or.inr h

theorem insertAscBy_proj (key₁ : Nat × List Char → Nat)
    (key₂ : Nat × Nat × List Char → Nat) (x : Nat × Nat × List Char)
    (hx : key₁ (x.1, x.2.2) = key₂ x) :
    ∀ acc, (∀ y ∈ acc, key₁ (y.1, y.2.2) = key₂ y) →
      insertAscBy key₁ (x.1, x.2.2) (acc.map (fun z => (z.1, z.2.2))) =
        (insertAscBy key₂ x acc).map (fun z => (z.1, z.2.2)) := by
  intro acc
  induction acc with
  | nil => intro _; rfl
  | cons y ys ih =>
    intro h
    have hy : key₁ (y.1, y.2.2) = key₂ y := h y (List.mem_cons_self _ _)
    simp only [List.map_cons, insertAscBy]
    by_cases hc : key₂ y ≤ key₂ x
    · rw [if_pos (by rw [hy, hx]; exact hc), if_pos hc, List.map_cons,
        ih (fun z hz => h z (List.mem_cons_of_mem _ hz))]
    · rw [if_neg (by rw [hy, hx]; exact hc), if_neg hc]
      simp

theorem foldl_insertAscBy_proj (key₁ : Nat × List Char → Nat)
    (key₂ : Nat × Nat × List Char → Nat) :
    ∀ (l acc : List (Nat × Nat × List Char)),
      (∀ x ∈ l, key₁ (x.1, x.2.2) = key₂ x) →
      (∀ y ∈ acc, key₁ (y.1, y.2.2) = key₂ y) →
      (l.map (fun z => (z.1, z.2.2))).foldl (fun a x => insertAscBy key₁ x a)
          (acc.map (fun z => (z.1, z.2.2))) =
        (l.foldl (fun a x => insertAscBy key₂ x a) acc).map (fun z => (z.1, z.2.2)) := by
  intro l
  induction l with
  | nil => intro acc _ _; rfl
  | cons x xs ih =>
    intro acc hl hacc
    simp only [List.map_cons, List.foldl_cons]
    rw [insertAscBy_proj key₁ key₂ x (hl x (List.mem_cons_self _ _)) acc hacc]
    apply ih
    · intro z hz
      exact hl z (List.mem_cons_of_mem _ hz)
    · intro y hy
      rcases mem_insertAscBy key₂ x y acc hy with h | h
      · exact h ▸ hl x (List.mem_cons_self _ _)
      · exact hacc y h

theorem sortAscBy_proj (key₁ : Nat × List Char → Nat)
    (key₂ : Nat × Nat × List Char → Nat) (l : List (Nat × Nat × List Char))
    (hl : ∀ x ∈ l, key₁ (x.1, x.2.2) = key₂ x) :
    sortAscBy key₁ (l.map (fun z => (z.1, z.2.2))) =
      (sortAscBy key₂ l).map (fun z => (z.1, z.2.2)) := by
  unfold sortAscBy
  have h := foldl_insertAscBy_proj key₁ key₂ l [] hl (by simp)
  simpa using h

theorem fst_le_of_mem_enumFrom (l : List α) :
    ∀ (n : Nat) (b : Nat × α), b ∈ l.enumFrom n → n ≤ b.1 := by
  induction l with
  | nil => intro n b h; simp at h
  | cons x xs ih =>
    intro n b h
    rw [List.enumFrom_cons, List.mem_cons] at h
    rcases h with h | h
    · rw [h]
    · exact Nat.le_of_succ_le (ih (n + 1) b h)

theorem pairwise_fst_lt_enumFrom (l : List α) :
    ∀ n : Nat, (l.enumFrom n).Pairwise (fun a b => a.1 < b.1) := by
  induction l with
  | nil => intro n; simp
  | cons x xs ih =>
    intro n
    rw [List.enumFrom_cons, List.pairwise_cons]
    exact ⟨fun b hb => Nat.lt_of_succ_le (fst_le_of_mem_enumFrom xs (n + 1) b hb),
      ih (n + 1)⟩

theorem firstIdx_of_getElem? (l : List (List Char)) :
    l.Nodup → ∀ (i : Nat) (s : List Char), l[i]? = some s → firstIdx l s = i := by
  induction l with
  | nil => intro _ i s h; simp at h
  | cons t ts ih =>
    intro hd i s h
    match i with
    | 0 =>
      rw [List.getElem?_cons_zero] at h
      injection h with h
      unfold firstIdx
      rw [if_pos h]
    | i + 1 =>
      rw [List.getElem?_cons_succ] at h
      have hs : s ∈ ts := by
        obtain ⟨hlt, hget⟩ := List.getElem?_eq_some.mp h
        exact hget ▸ List.getElem_mem hlt
      have ht : ¬ t = s := fun hh => (List.nodup_cons.mp hd).1 (hh ▸ hs)
      unfold firstIdx
      rw [if_neg ht, ih (List.nodup_cons.mp hd).2 i s h]

/-- Counterexample to C6 as stated: on a text whose first and third
sentences are textually identical (both top-scoring) with a
lower-scoring distinct sentence between them, the code orders the
selection by first occurrence of the text — grouping the duplicates —
while the claim's original-position order interleaves them, and the two
outputs differ. -/
theorem summarize_order_counterexample :
    summarizeText "cat cat cat. cat dog. cat cat cat. dog." 3 =
      "cat cat cat. cat cat cat. cat dog." ∧
    claimSummarySpec "cat cat cat. cat dog. cat cat cat. dog." 3 =
      "cat cat cat. cat dog. cat cat cat." ∧
    summarizeText "cat cat cat. cat dog. cat cat cat. dog." 3 ≠
      claimSummarySpec "cat cat cat. cat dog. cat cat cat. dog." 3 := by
  refine ⟨by decide, by decide, by decide⟩

/-- C6 as amended: for every text with more than `max_sentences`
sentences, `summarize_text` selects the `max_sentences` highest-scoring
sentences with score ties broken by lower original index, re-orders the
selected sentences by the first occurrence of their text — which is
their original position whenever the sentence texts are pairwise
distinct (with duplicate texts the duplicates are grouped at the first
copy's position, see the counterexample) — joins them with a single
space and trims.  Stated as a refinement: on every input whose sentence
list has no duplicates, the code equals the spec-side function
`claimSummarySpec`, which selects by "higher score first, ties by lower
index" and re-orders by original position.  (When the sentence count is
at most `max_sentences` both sides return the cleaned text, so the
equality is unconditional on the count.) -/
theorem summarize_order_refines_spec (t : String) (n : Nat)
    (hd : (splitSentences (cleanHtmlTags t.data)).Nodup) :
    summarizeText t n = claimSummarySpec t n := by
  simp only [summarizeText, claimSummarySpec]
  by_cases h : (splitSentences (cleanHtmlTags t.data)).length ≤ n
  · rw [if_pos h, if_pos h]
  · rw [if_neg h, if_neg h]
    have hscoresI : List.Pairwise (fun a b => a.2.1 < b.2.1)
        ((splitSentences (cleanHtmlTags t.data)).enum.map
          (fun p => (sentenceScore (findWords (lowerL (cleanHtmlTags t.data))) p.2,
            p.1, p.2))) := by
      apply List.Pairwise.map
      · intro a b hab
        exact hab
      · have he : (splitSentences (cleanHtmlTags t.data)).enum =
            (splitSentences (cleanHtmlTags t.data)).enumFrom 0 := rfl
        rw [he]
        exact pairwise_fst_lt_enumFrom _ 0
    have hmemI : ∀ x ∈ (splitSentences (cleanHtmlTags t.data)).enum.map
        (fun p => (sentenceScore (findWords (lowerL (cleanHtmlTags t.data))) p.2,
          p.1, p.2)),
        (splitSentences (cleanHtmlTags t.data))[x.2.1]? = some x.2.2 := by
      intro x hx
      simp only [List.mem_map] at hx
      obtain ⟨p, hp, rfl⟩ := hx
      exact List.mem_enum_iff_getElem?.mp hp
    have hscores : (splitSentences (cleanHtmlTags t.data)).map
        (fun s => (sentenceScore (findWords (lowerL (cleanHtmlTags t.data))) s, s)) =
        ((splitSentences (cleanHtmlTags t.data)).enum.map
          (fun p => (sentenceScore (findWords (lowerL (cleanHtmlTags t.data))) p.2,
            p.1, p.2))).map (fun z => (z.1, z.2.2)) := by
      conv_lhs => rw [← List.enum_map_snd (splitSentences (cleanHtmlTags t.data))]
      rw [List.map_map, List.map_map]
      rfl
    rw [hscores, sortDescScore_proj _ hscoresI, ← List.map_take,
      sortAscBy_proj (fun p => firstIdx (splitSentences (cleanHtmlTags t.data)) p.2)
        (fun p => p.2.1) _ ?hkeys, List.map_map]
    · rfl
    case hkeys =>
      intro x hx
      have hxI := mem_sortDescTie _ x (List.take_subset n _ hx)
      exact firstIdx_of_getElem? _ hd x.2.1 x.2.2 (hmemI x hxI)

/-- Witness for C6's amended statement at a concrete input with three
pairwise-distinct sentences and `num_sentences = 1`. -/
theorem summarize_order_refines_spec_witness :
    (splitSentences (cleanHtmlTags "A cat sat. A dog ran. A cat played with a dog.".data)).Nodup ∧
    summarizeText "A cat sat. A dog ran. A cat played with a dog." 1 =
      claimSummarySpec "A cat sat. A dog ran. A cat played with a dog." 1 :=
  ⟨by decide,
   summarize_order_refines_spec "A cat sat. A dog ran. A cat played with a dog." 1
     (by decide)⟩

end NewsReports
